import Mathlib

/-!
# Book catalog and checkout session

A shallow embedding of `book_database.cpp` (the linear, recursive catalog
lookup) and of `checkout.cpp` (the recursive three-cart transfer and the
checkout pipeline), followed by theorems about them.

Conventions of the embedding:

* `std::stack<Book>` is a `List Book` whose head is the top of the stack;
  `std::queue<Book>` is a `List Book` whose head is the front of the queue.
* `std::size_t` values are naturals reduced modulo `2^64`; `int` values are
  integers, with the narrowing conversion from `std::size_t` made explicit.
* Undefined behaviour (reading or popping an empty container, signed
  overflow) and exhaustion of the call stack are results of type `Fault`.
* A `double` is the rational number it denotes (infinities and NaN have no
  counterpart). The addition of two doubles is a parameter `add` of the
  checkout; `double_add` is the addition of IEEE 754 binary64 on finite
  values, rounding to nearest with ties to even.
-/

namespace Bookstore

/-! ## Data model -/

/-- Modelled from the spec: the item record of `book.hpp`, which is not part of
the sources at hand. It has an identifier (ISBN), a title, an author and a
price, which is a `double`; the constructor used by `shop_for_books` takes
title, author and ISBN in that order. -/
structure Book where
  title : String
  author : String
  isbn : String
  price : ℚ
deriving DecidableEq, Repr

/-- Ways in which an execution can go wrong instead of returning. -/
inductive Fault where
  /-- Calling `top()`, `front()` or `pop()` on an empty container. -/
  | empty_container
  /-- Incrementing an `int` that already holds `INT_MAX`. -/
  | signed_overflow
  /-- Dereferencing a `Book*` that points to no record of the catalog. -/
  | invalid_pointer
  /-- The nesting of recursive calls exceeded the available call depth. -/
  | call_depth
deriving DecidableEq, Repr

/-- Number of values of a `std::size_t` (64 bits). -/
def SIZE_MOD : Nat := 18446744073709551616

/-- Largest value of an `int` (32 bits). -/
def INT_MAX : Int := 2147483647

/-- The conversion `const int original_size = container.size();` of an unsigned
size to a 32-bit `int` (wrap-around of the two-complement representation). -/
def int_of_size (n : Nat) : Int :=
  if n % 4294967296 < 2147483648 then ((n % 4294967296 : Nat) : Int)
  else ((n % 4294967296 : Nat) : Int) - 4294967296

/-- The integer nearest to `q`, a tie going to the even one. -/
def round_half_even (q : ℚ) : Int :=
  if q - ⌊q⌋ < 1 / 2 then ⌊q⌋
  else if 1 / 2 < q - ⌊q⌋ then ⌊q⌋ + 1
  else if ⌊q⌋ % 2 = 0 then ⌊q⌋ else ⌊q⌋ + 1

/-- The exponent of the unit in the last place of the doubles of the size of
`q`: 52 binary places below the leading one, and never below the least exponent
`-1074` of a double. -/
def ulp_exponent (q : ℚ) : Int := max (Int.log 2 |q| - 52) (-1074)

/-- The double nearest to `q`, a tie going to the even significand (the default
rounding of IEEE 754). Results beyond the largest finite double, which the
machine replaces by an infinity, are left as they are. -/
def double_round (q : ℚ) : ℚ :=
  if q < 0 then -((round_half_even (-q / 2 ^ ulp_exponent q) : ℚ) * 2 ^ ulp_exponent q)
  else (round_half_even (q / 2 ^ ulp_exponent q) : ℚ) * 2 ^ ulp_exponent q

/-- The addition of two doubles, as `+=` on `amount_due_` performs it: the exact
sum, rounded to a double. -/
def double_add (x y : ℚ) : ℚ := double_round (x + y)

/-- The stack operation `std::stack::top`. -/
def stack_top (s : List Book) : Except Fault Book :=
  match s with
  | [] => .error .empty_container
  | b :: _ => .ok b

/-- The stack operation `std::stack::pop`. -/
def stack_pop (s : List Book) : Except Fault (List Book) :=
  match s with
  | [] => .error .empty_container
  | _ :: rest => .ok rest

/-- The stack operation `std::stack::push`. -/
def stack_push (s : List Book) (b : Book) : List Book := b :: s

/-- The queue operation `std::queue::front`. -/
def queue_front (q : List Book) : Except Fault Book :=
  match q with
  | [] => .error .empty_container
  | b :: _ => .ok b

/-- The queue operation `std::queue::pop`. -/
def queue_pop (q : List Book) : Except Fault (List Book) :=
  match q with
  | [] => .error .empty_container
  | _ :: rest => .ok rest

/-- The queue operation `std::queue::push` (enqueue at the back). -/
def queue_push (q : List Book) (b : Book) : List Book := q ++ [b]

/-! ## The catalog (`book_database.cpp`) -/

/-- The in-memory data store: the vector `database_`, in load order. -/
structure BookDatabase where
  database_ : List Book
deriving DecidableEq, Repr

namespace BookDatabase

/-- The recursive helper `BookDatabase::find_helper_function(isbn, index)`.
The returned `Book*` is modelled by the index of the record it points to
(`some i` for `&database_[i]`, `none` for `nullptr`). -/
def find_helper_function (db : BookDatabase) (isbn : String) (index : Int) :
    Except Fault (Option Nat) :=
  if h : index < 0 ∨ index ≥ (db.database_.length : Int) then
    .ok none
  else
    have hlt : index.toNat < db.database_.length := by omega
    let isbn_at_index := (db.database_[index.toNat]).isbn
    if isbn = isbn_at_index then
      .ok (some index.toNat)
    else if index = INT_MAX then
      .error .signed_overflow
    else
      db.find_helper_function isbn (index + 1)
termination_by (db.database_.length - index.toNat)
decreasing_by
  simp_wf
  omega

/-- The wrapper `BookDatabase::find(isbn)`. -/
def find (db : BookDatabase) (isbn : String) : Except Fault (Option Nat) :=
  db.find_helper_function isbn 0

/-- The member `BookDatabase::size()`. -/
def size (db : BookDatabase) : Nat := db.database_.length % SIZE_MOD

/-- Dereferencing a pointer returned by `find`: the record at that index. -/
def deref (db : BookDatabase) (i : Nat) : Option Book := db.database_[i]?

end BookDatabase

/-! ## The three carts of the transfer (`checkout.cpp`) -/

/-- Identity of the three stack objects that `carefully_move_books` receives
by reference: the `my_cart_` and the `working_cart_` of the session, and the local
`spare_cart` of `switch_carts`. -/
inductive CartRef where
  | mine
  | working
  | spare
deriving DecidableEq, Repr

/-- What the transfer does that can be observed from outside. -/
inductive Event where
  /-- One primitive move: `dst.push(src.top()); src.pop();`. -/
  | moved (src dst : CartRef) (book : Book)
  /-- One call `trace(sourceCart, destinationCart, spareCart)`. -/
  | traced (sourceCart destinationCart spareCart : CartRef)
deriving DecidableEq, Repr

/-- The three stacks, and the record of moves and trace calls so far. -/
structure Carts where
  my_cart : List Book
  working_cart : List Book
  spare_cart : List Book
  events : List Event
deriving DecidableEq, Repr

namespace Carts

/-- The stack a reference is bound to. -/
def get (σ : Carts) (r : CartRef) : List Book :=
  match r with
  | .mine => σ.my_cart
  | .working => σ.working_cart
  | .spare => σ.spare_cart

/-- Assignment through a reference. -/
def set (σ : Carts) (r : CartRef) (s : List Book) : Carts :=
  match r with
  | .mine => { σ with my_cart := s }
  | .working => { σ with working_cart := s }
  | .spare => { σ with spare_cart := s }

/-- Appending one event to the record. -/
def record (σ : Carts) (e : Event) : Carts :=
  { σ with events := σ.events ++ [e] }

end Carts

/-- The function `trace` of the anonymous namespace. With `kOutputTrace` set to
`false` it prints nothing and changes no cart; the call itself is recorded. -/
def trace (sourceCart destinationCart spareCart : CartRef) (σ : Carts) : Carts :=
  σ.record (.traced sourceCart destinationCart spareCart)

/-- The primitive move written twice in `carefully_move_books`:
`working_cart.push(broken_cart.top()); broken_cart.pop();`. -/
def move_top_book (broken_cart working_cart : CartRef) (σ : Carts) :
    Except Fault Carts := do
  let top ← stack_top (σ.get broken_cart)
  let σ1 := σ.set working_cart (stack_push (σ.get working_cart) top)
  let rest ← stack_pop (σ1.get broken_cart)
  pure ((σ1.set broken_cart rest).record (.moved broken_cart working_cart top))

/-- The member `Checkout::carefully_move_books(quantity, broken_cart,
working_cart, spare_cart)`. The first argument bounds the nesting of recursive
calls; `quantity` is a `std::size_t`, so `quantity - 1` wraps modulo `2^64`. -/
def carefully_move_books :
    Nat → Nat → CartRef → CartRef → CartRef → Carts → Except Fault Carts
  | 0, _, _, _, _, _ => .error .call_depth
  | depth + 1, quantity, broken_cart, working_cart, spare_cart, σ =>
    if quantity = 1 then do
      let σ ← move_top_book broken_cart working_cart σ
      pure (trace broken_cart working_cart spare_cart σ)
    else do
      let σ ← carefully_move_books depth ((quantity + (SIZE_MOD - 1)) % SIZE_MOD)
        broken_cart spare_cart working_cart σ
      let σ ← move_top_book broken_cart working_cart σ
      let σ := trace broken_cart spare_cart working_cart σ
      carefully_move_books depth ((quantity + (SIZE_MOD - 1)) % SIZE_MOD)
        spare_cart working_cart broken_cart σ

/-! ## The checkout session (`checkout.cpp`) -/

/-- One line written to standard output by `do_checkout`. -/
inductive ReceiptLine where
  /-- The full description and price of the catalog record (`*book_ptr`). -/
  | priced (book : Book)
  /-- The message that no description and price were found for this ISBN. -/
  | not_found (isbn : String)
  /-- The separator line. -/
  | rule
  /-- The line `Total: $...`. -/
  | total (amount : ℚ)
deriving DecidableEq, Repr

/-- The state of a `Checkout` object, with what it has written to standard
output. The member list is read off `checkout.cpp`, `checkout.hpp` not being
part of the sources at hand. -/
structure Checkout where
  book_database_ : BookDatabase
  my_cart_ : List Book
  working_cart_ : List Book
  checkout_counter_ : List Book
  amount_due_ : ℚ
  cout : List ReceiptLine
deriving DecidableEq, Repr

namespace Checkout

/-- Modelled from the spec: the initial state of a session, whose member
initialisers are in `checkout.hpp`, not part of the sources at hand: the three
containers start empty and the total starts at zero. -/
def fresh (db : BookDatabase) : Checkout :=
  { book_database_ := db, my_cart_ := [], working_cart_ := [],
    checkout_counter_ := [], amount_due_ := 0, cout := [] }

/-- The member `Checkout::shop_for_books()`. The price of the five books is not
given to the constructor; `book.hpp` defaults it, taken to be zero. -/
def shop_for_books (c : Checkout) : Checkout :=
  let c := { c with my_cart_ := stack_push c.my_cart_ ⟨"Hunger Games", "", "9780545310581", 0⟩ }
  let c := { c with my_cart_ := stack_push c.my_cart_ ⟨"Eat pray love", "", "9780399576775", 0⟩ }
  let c := { c with my_cart_ := stack_push c.my_cart_ ⟨"Les Mis", "", "0140444300", 0⟩ }
  let c := { c with my_cart_ := stack_push c.my_cart_ ⟨"131 Answer Key", "", "54782169785", 0⟩ }
  { c with my_cart_ := stack_push c.my_cart_ ⟨"Like the Animals", "", "9780895656926", 0⟩ }

/-- The member `Checkout::switch_carts()`; `depth` is the call depth available
to the recursion it starts. -/
def switch_carts (depth : Nat) (c : Checkout) : Except Fault Checkout := do
  let spare_cart : List Book := []
  let σ : Carts :=
    { my_cart := c.my_cart_, working_cart := c.working_cart_,
      spare_cart := spare_cart, events := [] }
  let σ ← carefully_move_books depth (c.my_cart_.length % SIZE_MOD)
    .mine .working .spare σ
  pure { c with my_cart_ := σ.my_cart, working_cart_ := σ.working_cart }

/-- The body of the loop of `move_books_to_checkout`, run for the given number
of remaining iterations. -/
def move_books_loop : Nat → Checkout → Except Fault Checkout
  | 0, c => .ok c
  | remaining + 1, c => do
    let top ← stack_top c.working_cart_
    let c := { c with checkout_counter_ := queue_push c.checkout_counter_ top }
    let rest ← stack_pop c.working_cart_
    move_books_loop remaining { c with working_cart_ := rest }

/-- The member `Checkout::move_books_to_checkout()`: the loop runs for
`i = 0, ..., original_size - 1`. -/
def move_books_to_checkout (c : Checkout) : Except Fault Checkout :=
  let original_size : Int := int_of_size c.working_cart_.length
  move_books_loop original_size.toNat c

/-- The two branches of `if (book_ptr != nullptr)` in `do_checkout`: the price
of a found record is added to `amount_due_` with the addition `add` of doubles
(`amount_due_ += (*book_ptr).price()`) and the record is printed; otherwise the
message that nothing was found for this ISBN is printed. -/
def settle_item (add : ℚ → ℚ → ℚ) (c : Checkout) (isbn : String) (book_ptr : Option Nat) :
    Except Fault Checkout :=
  match book_ptr with
  | some i =>
    match c.book_database_.deref i with
    | some book =>
      .ok { c with amount_due_ := add c.amount_due_ book.price,
                   cout := c.cout ++ [ReceiptLine.priced book] }
    | none => .error Fault.invalid_pointer
  | none => .ok { c with cout := c.cout ++ [ReceiptLine.not_found isbn] }

/-- The body of the loop of `do_checkout`, run for the given number of remaining
iterations; `add` is the addition of doubles. -/
def do_checkout_loop (add : ℚ → ℚ → ℚ) : Nat → Checkout → Except Fault Checkout
  | 0, c => .ok c
  | remaining + 1, c => do
    let front ← queue_front c.checkout_counter_
    let isbn := front.isbn
    let book_ptr ← c.book_database_.find isbn
    let c ← settle_item add c isbn book_ptr
    let rest ← queue_pop c.checkout_counter_
    do_checkout_loop add remaining { c with checkout_counter_ := rest }

/-- The member `Checkout::do_checkout()`; `add` is the addition of doubles. -/
def do_checkout (add : ℚ → ℚ → ℚ) (c : Checkout) : Except Fault Checkout := do
  let original_size : Int := int_of_size c.checkout_counter_.length
  let c ← do_checkout_loop add original_size.toNat c
  pure { c with cout := c.cout ++ [.rule, .total c.amount_due_] }

end Checkout

/-! ## Vocabulary of the statements -/

/-- Whether an event is a primitive move. -/
def Event.is_move : Event → Bool
  | .moved _ _ _ => true
  | .traced _ _ _ => false

/-- Whether an event is a call of `trace`. -/
def Event.is_trace : Event → Bool
  | .moved _ _ _ => false
  | .traced _ _ _ => true

/-- Number of primitive moves in a record of events. -/
def count_moves (evs : List Event) : Nat := evs.countP Event.is_move

/-- Number of calls of `trace` in a record of events. -/
def count_traces (evs : List Event) : Nat := evs.countP Event.is_trace

/-- The record consists of primitive moves each immediately followed by one call
of `trace`, and of nothing else. -/
def traced_after_each_move : List Event → Bool
  | [] => true
  | .moved _ _ _ :: .traced _ _ _ :: rest => traced_after_each_move rest
  | _ => false

/-- Every primitive move of the record takes a book from one cart and puts it
onto a different cart. -/
def moves_between_different_carts (evs : List Event) : Bool :=
  evs.all fun e =>
    match e with
    | .moved src dst _ => decide (src ≠ dst)
    | .traced _ _ _ => true

/-- The amount due once `do_checkout` has settled one item with the given
identifier: the price of the record that `find` returns for it is added with
`add` to the amount due before; when `find` returns `nullptr` the amount due is
left as it is. -/
def charged (add : ℚ → ℚ → ℚ) (db : BookDatabase) (due : ℚ) (isbn : String) : ℚ :=
  match db.find isbn with
  | .ok (some i) =>
    match db.deref i with
    | some book => add due book.price
    | none => due
  | _ => due

/-- The price that stands for an identifier in the exact sum of the prices
found: the price of the record that `find` returns for it, and zero when `find`
returns `nullptr`. -/
def charge (db : BookDatabase) (isbn : String) : ℚ :=
  match db.find isbn with
  | .ok (some i) =>
    match db.deref i with
    | some book => book.price
    | none => 0
  | _ => 0

/-- The line `do_checkout` prints for an identifier: the record that `find`
returns for it, or the message that nothing was found. -/
def receipt_line (db : BookDatabase) (isbn : String) : ReceiptLine :=
  match db.find isbn with
  | .ok (some i) =>
    match db.deref i with
    | some book => .priced book
    | none => .not_found isbn
  | _ => .not_found isbn

/-- Whether a receipt line is a priced line. -/
def ReceiptLine.is_priced : ReceiptLine → Bool
  | .priced _ => true
  | _ => false

/-- Whether a receipt line is a not-found, no-charge line. -/
def ReceiptLine.is_not_found : ReceiptLine → Bool
  | .not_found _ => true
  | _ => false

/-- The five books that `shop_for_books` puts into the cart, listed from the top
of the cart (pushed last) to its bottom (pushed first). -/
def five_books : List Book :=
  [⟨"Like the Animals", "", "9780895656926", 0⟩,
   ⟨"131 Answer Key", "", "54782169785", 0⟩,
   ⟨"Les Mis", "", "0140444300", 0⟩,
   ⟨"Eat pray love", "", "9780399576775", 0⟩,
   ⟨"Hunger Games", "", "9780545310581", 0⟩]

/-- The catalog of the checkout scenario: it holds Hunger Games at 14.99 and
Les Mis at 9.50, and nothing else. The prices are doubles: the one nearest to
14.99, which is `8438619801785467 / 2^49`, and 9.5 itself. -/
def scenario_catalog : BookDatabase :=
  ⟨[⟨"Hunger Games", "Suzanne Collins", "9780545310581",
      8438619801785467 / 562949953421312⟩,
    ⟨"Les Mis", "Victor Hugo", "0140444300", 19 / 2⟩]⟩

/-- The session of the checkout scenario once the five books are on the counter,
the book that was on top of the cart at the front. -/
def scenario_at_counter : Checkout :=
  { Checkout.fresh scenario_catalog with checkout_counter_ := five_books }

/-- A session whose working cart holds the five books and whose counter is
empty. -/
def scenario_in_working_cart : Checkout :=
  { Checkout.fresh scenario_catalog with working_cart_ := five_books }

/-- The constructor `BookDatabase::BookDatabase(filename)`: each book that the
extraction operator of `book.hpp` reads from the file, in file order, is
appended to `database_` with `push_back`. The books read are the argument. -/
def BookDatabase.read_books (books : List Book) : BookDatabase :=
  books.foldl (fun db temp => ⟨db.database_ ++ [temp]⟩) ⟨[]⟩

/-- A call of one of the two public member functions of the catalog. -/
inductive Query where
  | size
  | find (isbn : String)
deriving DecidableEq, Repr

/-- What a call of a public member function of the catalog returns. -/
inductive Answer where
  | size (count : Nat)
  | find (book_ptr : Except Fault (Option Nat))

/-- One call on the catalog object: what it returns, and the catalog after the
call. Neither `size` (a `const` member) nor `find` and its helper contain an
assignment to `database_` or to a record, so the catalog after the call is the
catalog before it. -/
def BookDatabase.call (db : BookDatabase) : Query → Answer × BookDatabase
  | .size => (.size db.size, db)
  | .find isbn => (.find (db.find isbn), db)

/-- A sequence of calls on the catalog object, each made on the catalog that the
previous call left: the answers in order, and the catalog after the last call. -/
def BookDatabase.call_all (db : BookDatabase) : List Query → List Answer × BookDatabase
  | [] => ([], db)
  | q :: rest =>
    ((db.call q).1 :: ((db.call q).2.call_all rest).1, ((db.call q).2.call_all rest).2)

/-- The effect on the three carts of one recorded event, following the glossary
of the specification: a primitive move relocates exactly one book, the current
top of one cart, onto the top of a different cart; a call of `trace` changes no
cart. An event that is not such a move has no effect to speak of. -/
def Event.apply (σ : Carts) : Event → Option Carts
  | .moved src dst book =>
    match σ.get src with
    | [] => none
    | top :: rest =>
      if src ≠ dst ∧ top = book then
        some (((σ.set dst (book :: σ.get dst)).set src rest).record (.moved src dst book))
      else none
  | .traced sourceCart destinationCart spareCart =>
    some (σ.record (.traced sourceCart destinationCart spareCart))

/-- The carts reached from `σ` by the recorded events, one after the other. -/
def replay (σ : Carts) : List Event → Option Carts
  | [] => some σ
  | e :: rest => (e.apply σ).bind (fun σ1 => replay σ1 rest)

/-- All the books in the three carts together. -/
def all_books (σ : Carts) : List Book :=
  σ.my_cart ++ σ.working_cart ++ σ.spare_cart

/-! ## The catalog lookup -/

/-- Scanning from index `i` returns `nullptr` when no record from `i` on has
the identifier. -/
theorem find_helper_none (db : BookDatabase) (isbn : String)
    (hsz : (db.database_.length : Int) ≤ INT_MAX) :
    ∀ (k i : Nat), db.database_.length - i = k →
      (∀ j, i ≤ j → (hj : j < db.database_.length) → (db.database_[j]).isbn ≠ isbn) →
      db.find_helper_function isbn (i : Int) = .ok none := by
  intro k
  induction k with
  | zero =>
    intro i hk _
    rw [BookDatabase.find_helper_function]
    have hout : (i : Int) < 0 ∨ (i : Int) ≥ (db.database_.length : Int) := by omega
    rw [dif_pos hout]
  | succ k ih =>
    intro i hk hno
    rw [BookDatabase.find_helper_function]
    have hlt : i < db.database_.length := by omega
    have h1 : ¬ ((i : Int) < 0 ∨ (i : Int) ≥ (db.database_.length : Int)) := by omega
    have h2 : ¬ (isbn = (db.database_[i]).isbn) := fun h => hno i (le_refl _) hlt h.symm
    have h3 : ¬ ((i : Int) = INT_MAX) := by omega
    rw [dif_neg h1]
    simp only [Int.toNat_ofNat, h2, ↓reduceIte, h3]
    have hrec := ih (i + 1) (by omega) (fun j hj hjl => hno j (by omega) hjl)
    simpa using hrec

/-- Scanning from index `i` returns the first record from `i` on that has the
identifier. -/
theorem find_helper_some (db : BookDatabase) (isbn : String)
    (hsz : (db.database_.length : Int) ≤ INT_MAX) (m : Nat)
    (hm : m < db.database_.length) (hhit : (db.database_[m]).isbn = isbn) :
    ∀ (k i : Nat), m - i = k → i ≤ m →
      (∀ j, i ≤ j → (hj : j < m) → (db.database_[j]).isbn ≠ isbn) →
      db.find_helper_function isbn (i : Int) = .ok (some m) := by
  intro k
  induction k with
  | zero =>
    intro i hk him _
    have him2 : i = m := by omega
    subst him2
    rw [BookDatabase.find_helper_function]
    have h1 : ¬ ((i : Int) < 0 ∨ (i : Int) ≥ (db.database_.length : Int)) := by omega
    rw [dif_neg h1]
    simp only [Int.toNat_ofNat, hhit, ↓reduceIte]
  | succ k ih =>
    intro i hk him hno
    have hlt : i < m := by omega
    rw [BookDatabase.find_helper_function]
    have h1 : ¬ ((i : Int) < 0 ∨ (i : Int) ≥ (db.database_.length : Int)) := by omega
    have h2 : ¬ (isbn = (db.database_[i]).isbn) := fun h => hno i (le_refl _) hlt h.symm
    have h3 : ¬ ((i : Int) = INT_MAX) := by omega
    rw [dif_neg h1]
    simp only [Int.toNat_ofNat, h2, ↓reduceIte, h3]
    have hrec := ih (i + 1) (by omega) (by omega) (fun j hj hjl => hno j (by omega) hjl)
    simpa using hrec

/-- The lookup of an identifier that no record has returns `nullptr`. -/
theorem find_absent (db : BookDatabase) (isbn : String)
    (hsz : (db.database_.length : Int) ≤ INT_MAX)
    (habs : ∀ b ∈ db.database_, b.isbn ≠ isbn) :
    db.find isbn = .ok none := by
  have h := find_helper_none db isbn hsz (db.database_.length - 0) 0 rfl
    (fun j _ hj => habs _ (List.getElem_mem hj))
  simpa [BookDatabase.find] using h

/-- The lookup of an identifier that some record has returns the lowest index
holding it. -/
theorem find_present (db : BookDatabase) (isbn : String)
    (hsz : (db.database_.length : Int) ≤ INT_MAX)
    (hocc : ∃ b ∈ db.database_, b.isbn = isbn) :
    ∃ m, ∃ hm : m < db.database_.length,
      db.find isbn = .ok (some m) ∧ (db.database_[m]).isbn = isbn ∧
      ∀ j, (hj : j < m) → (db.database_[j]).isbn ≠ isbn := by
  classical
  have hex : ∃ m, ∃ hm : m < db.database_.length, (db.database_[m]).isbn = isbn := by
    obtain ⟨b, hb, hbi⟩ := hocc
    obtain ⟨m, hm, hmb⟩ := List.getElem_of_mem hb
    exact ⟨m, hm, by rw [hmb]; exact hbi⟩
  have hspec := Nat.find_spec hex
  obtain ⟨hm, hhit⟩ := hspec
  have hmin : ∀ j, (hj : j < Nat.find hex) → (db.database_[j]).isbn ≠ isbn := by
    intro j hj hji
    exact Nat.find_min hex hj ⟨by omega, hji⟩
  refine ⟨Nat.find hex, hm, ?_, hhit, hmin⟩
  have h := find_helper_some db isbn hsz (Nat.find hex) hm hhit (Nat.find hex - 0) 0 rfl
    (Nat.zero_le _) (fun j _ hj => hmin j hj)
  simpa [BookDatabase.find] using h

/-! ## The three-cart transfer -/

theorem get_set_same (σ : Carts) (r : CartRef) (s : List Book) :
    (σ.set r s).get r = s := by
  cases r <;> rfl

theorem get_set_other (σ : Carts) (r r2 : CartRef) (s : List Book) (h : r2 ≠ r) :
    (σ.set r s).get r2 = σ.get r2 := by
  cases r <;> cases r2 <;> first | rfl | exact absurd rfl h

theorem events_set (σ : Carts) (r : CartRef) (s : List Book) :
    (σ.set r s).events = σ.events := by
  cases r <;> rfl

theorem get_record (σ : Carts) (e : Event) (r : CartRef) :
    (σ.record e).get r = σ.get r := by
  cases r <;> rfl

theorem events_record (σ : Carts) (e : Event) :
    (σ.record e).events = σ.events ++ [e] := rfl

/-- A primitive move between two different carts, the source being non-empty,
succeeds and relocates exactly the top book. -/
theorem move_top_book_ok (src dst : CartRef) (σ : Carts) (x : Book) (rest : List Book)
    (hne : src ≠ dst) (hsrc : σ.get src = x :: rest) :
    ∃ σ2, move_top_book src dst σ = .ok σ2 ∧
      σ2.get src = rest ∧ σ2.get dst = x :: σ.get dst ∧
      (∀ r, r ≠ src → r ≠ dst → σ2.get r = σ.get r) ∧
      σ2.events = σ.events ++ [Event.moved src dst x] := by
  refine ⟨((σ.set dst (x :: σ.get dst)).set src rest).record (.moved src dst x), ?_, ?_, ?_, ?_, ?_⟩
  · simp only [move_top_book, hsrc, stack_top, stack_push, bind, Except.bind,
      get_set_other _ dst src _ hne, stack_pop, pure, Except.pure]
  · rw [get_record, get_set_same]
  · rw [get_record, get_set_other _ src dst _ (Ne.symm hne), get_set_same]
  · intro r h1 h2
    rw [get_record, get_set_other _ src r _ h1, get_set_other _ dst r _ h2]
  · rw [events_record, events_set, events_set]

theorem traced_after_each_move_append (a b : List Event)
    (ha : traced_after_each_move a = true) (hb : traced_after_each_move b = true) :
    traced_after_each_move (a ++ b) = true := by
  induction a using traced_after_each_move.induct with
  | case1 => simpa using hb
  | case2 s d bk s2 d2 p2 rest ih =>
    simp only [List.cons_append, traced_after_each_move] at ha ⊢
    exact ih ha
  | case3 l h1 h2 =>
    exfalso
    unfold traced_after_each_move at ha
    split at ha
    · exact h1 rfl
    · exact h2 _ _ _ _ _ _ _ rfl
    · exact Bool.false_ne_true ha

theorem moves_between_different_carts_append (a b : List Event) :
    moves_between_different_carts (a ++ b) =
      (moves_between_different_carts a && moves_between_different_carts b) := by
  unfold moves_between_different_carts
  exact List.all_append

theorem size_pred (n : Nat) (h1 : 1 ≤ n) (h2 : n < SIZE_MOD) :
    (n + (SIZE_MOD - 1)) % SIZE_MOD = n - 1 := by
  unfold SIZE_MOD at *
  omega

/-- The transfer of the top `n` books of `src` onto `dst`, with the books
beneath them and the contents of the two other carts as a frame. -/
theorem transfer_spec : ∀ (n : Nat), 1 ≤ n → n < SIZE_MOD →
    ∀ (depth : Nat) (src dst tmp : CartRef) (σ : Carts) (xs rest : List Book),
    n ≤ depth → src ≠ dst → src ≠ tmp → dst ≠ tmp →
    σ.get src = xs ++ rest → xs.length = n →
    ∃ σ2, carefully_move_books depth n src dst tmp σ = .ok σ2 ∧
      σ2.get src = rest ∧ σ2.get dst = xs ++ σ.get dst ∧ σ2.get tmp = σ.get tmp ∧
      ∃ evs, σ2.events = σ.events ++ evs ∧ traced_after_each_move evs = true ∧
        count_moves evs = 2 ^ n - 1 ∧ count_traces evs = 2 ^ n - 1 ∧
        moves_between_different_carts evs = true := by
  intro n hn
  induction n, hn using Nat.le_induction with
  | base =>
    intro _ depth src dst tmp σ xs rest hd h1 h2 h3 hsrc hlen
    obtain ⟨d, rfl⟩ : ∃ d, depth = d + 1 := ⟨depth - 1, by omega⟩
    obtain ⟨x, rfl⟩ : ∃ x, xs = [x] := List.length_eq_one.mp hlen
    obtain ⟨σ2, hmv, g1, g2, g3, ge⟩ := move_top_book_ok src dst σ x rest h1 hsrc
    refine ⟨trace src dst tmp σ2, ?_, ?_, ?_, ?_, ?_⟩
    · simp [carefully_move_books, hmv, bind, Except.bind, pure, Except.pure]
    · simpa [trace, get_record] using g1
    · simpa [trace, get_record] using g2
    · simpa [trace, get_record] using g3 tmp (Ne.symm h2) (Ne.symm h3)
    · refine ⟨[Event.moved src dst x, Event.traced src dst tmp], ?_, ?_, ?_, ?_, ?_⟩
      · simp [trace, events_record, ge]
      · rfl
      · rfl
      · rfl
      · simp [moves_between_different_carts, h1]
  | succ n hn ih =>
    intro hsz depth src dst tmp σ xs rest hd h1 h2 h3 hsrc hlen
    obtain ⟨d, rfl⟩ : ∃ d, depth = d + 1 := ⟨depth - 1, by omega⟩
    have hq : ((n + 1) + (SIZE_MOD - 1)) % SIZE_MOD = n := by
      rw [size_pred (n + 1) (by omega) hsz]; rfl
    have hne1 : ¬ (n + 1 = 1) := by omega
    -- split the books to move into those above the lowest one, and the lowest one
    obtain ⟨upper, low, hxs⟩ : ∃ upper low, xs = upper ++ [low] := by
      rcases List.eq_nil_or_concat xs with h | ⟨L, b, h⟩
      · rw [h] at hlen; simp at hlen
      · exact ⟨L, b, by simpa using h⟩
    subst hxs
    have hupl : upper.length = n := by simpa using hlen
    have hsrc1 : σ.get src = upper ++ (low :: rest) := by simpa using hsrc
    obtain ⟨σ1, hc1, a1, a2, a3, ev1, ae, at1, am1, atr1, ad1⟩ :=
      ih (by omega) d src tmp dst σ upper (low :: rest) (by omega) h2 h1 (Ne.symm h3)
        hsrc1 hupl
    obtain ⟨σ2, hmv, g1, g2, g3, ge⟩ := move_top_book_ok src dst σ1 low rest h1 a1
    have gsp : (trace src tmp dst σ2).get tmp = upper ++ σ.get tmp := by
      rw [trace, get_record, g3 tmp (Ne.symm h2) (Ne.symm h3), a2]
    obtain ⟨σ3, hc2, b1, b2, b3, ev2, be, bt, bm, btr, bd⟩ :=
      ih (by omega) d tmp dst src (trace src tmp dst σ2) upper (σ.get tmp) (by omega)
        (Ne.symm h3) (Ne.symm h2) (Ne.symm h1) gsp hupl
    refine ⟨σ3, ?_, ?_, ?_, ?_, ?_⟩
    · rw [carefully_move_books, if_neg hne1, hq]
      simp only [bind, Except.bind, hc1, hmv, hc2]
    · rw [b3, trace, get_record, g1]
    · rw [b2, trace, get_record, g2, a3]; simp
    · rw [b1]
    · refine ⟨ev1 ++ ([Event.moved src dst low, Event.traced src tmp dst] ++ ev2),
        ?_, ?_, ?_, ?_, ?_⟩
      · rw [be, trace, events_record, ge, ae]; simp
      · exact traced_after_each_move_append _ _ at1
          (traced_after_each_move_append _ _ rfl bt)
      · have hp : 1 ≤ 2 ^ n := Nat.one_le_two_pow
        simp only [count_moves, List.countP_append] at am1 bm ⊢
        rw [am1, bm, pow_succ]
        simp [List.countP_cons, Event.is_move]
        omega
      · have hp : 1 ≤ 2 ^ n := Nat.one_le_two_pow
        simp only [count_traces, List.countP_append] at atr1 btr ⊢
        rw [atr1, btr, pow_succ]
        simp [List.countP_cons, Event.is_trace]
        omega
      · rw [moves_between_different_carts_append, moves_between_different_carts_append,
          ad1, bd]
        simp [moves_between_different_carts, h1]

theorem int_of_size_small (n : Nat) (h : n < 2147483648) : (int_of_size n).toNat = n := by
  unfold int_of_size
  have h1 : n % 4294967296 = n := Nat.mod_eq_of_lt (by omega)
  rw [h1, if_pos h]
  simp

/-- With an empty source cart the transfer never returns normally, whatever the
count and the call depth. -/
theorem transfer_empty_source_faults : ∀ (depth quantity : Nat) (src dst tmp : CartRef)
    (σ : Carts), σ.get src = [] →
    ∃ e, carefully_move_books depth quantity src dst tmp σ = .error e := by
  intro depth
  induction depth with
  | zero => intro quantity src dst tmp σ _; exact ⟨.call_depth, rfl⟩
  | succ d ih =>
    intro quantity src dst tmp σ hsrc
    by_cases hq : quantity = 1
    · refine ⟨.empty_container, ?_⟩
      simp [carefully_move_books, hq, move_top_book, hsrc, stack_top, bind, Except.bind]
    · obtain ⟨e, he⟩ := ih ((quantity + (SIZE_MOD - 1)) % SIZE_MOD) src tmp dst σ hsrc
      refine ⟨e, ?_⟩
      rw [carefully_move_books, if_neg hq]
      simp only [bind, Except.bind, he]

/-- The lookup never faults on a catalog whose size fits an `int`, and an index
it returns is an index of the catalog. -/
theorem find_total (db : BookDatabase) (isbn : String)
    (hsz : (db.database_.length : Int) ≤ INT_MAX) :
    (db.find isbn = .ok none ∧ ∀ b ∈ db.database_, b.isbn ≠ isbn) ∨
    (∃ m, ∃ hm : m < db.database_.length, db.find isbn = .ok (some m) ∧
      db.deref m = some (db.database_[m]) ∧ (db.database_[m]).isbn = isbn) := by
  by_cases hocc : ∃ b ∈ db.database_, b.isbn = isbn
  · obtain ⟨m, hm, hf, hi, _⟩ := find_present db isbn hsz hocc
    exact Or.inr ⟨m, hm, hf, by simp [BookDatabase.deref, hm], hi⟩
  · refine Or.inl ⟨find_absent db isbn hsz ?_, ?_⟩ <;>
    · intro b hb hbi
      exact hocc ⟨b, hb, hbi⟩

/-- One item is settled without fault: its price, when found, is added and its
line is printed. -/
theorem settle_item_spec (add : ℚ → ℚ → ℚ) (c : Checkout) (isbn : String)
    (hsz : (c.book_database_.database_.length : Int) ≤ INT_MAX) :
    ∃ r, c.book_database_.find isbn = .ok r ∧
      Checkout.settle_item add c isbn r =
        .ok { c with amount_due_ := charged add c.book_database_ c.amount_due_ isbn,
                     cout := c.cout ++ [receipt_line c.book_database_ isbn] } := by
  rcases find_total c.book_database_ isbn hsz with ⟨hf, _⟩ | ⟨m, hm, hf, hd, _⟩
  · refine ⟨none, hf, ?_⟩
    simp [Checkout.settle_item, charged, receipt_line, hf]
  · refine ⟨some m, hf, ?_⟩
    simp [Checkout.settle_item, charged, receipt_line, hf, hd]

/-- The loop of `do_checkout` run for `k` iterations on a queue of at least `k`
items settles the first `k` items in order. -/
theorem do_checkout_loop_spec (add : ℚ → ℚ → ℚ) : ∀ (k : Nat) (c : Checkout),
    (c.book_database_.database_.length : Int) ≤ INT_MAX →
    k ≤ c.checkout_counter_.length →
    Checkout.do_checkout_loop add k c =
      .ok { c with
        checkout_counter_ := c.checkout_counter_.drop k,
        amount_due_ := (c.checkout_counter_.take k).foldl
          (fun due b => charged add c.book_database_ due b.isbn) c.amount_due_,
        cout := c.cout ++
          (c.checkout_counter_.take k).map (fun b => receipt_line c.book_database_ b.isbn) } := by
  intro k
  induction k with
  | zero => intro c _ _; simp [Checkout.do_checkout_loop]
  | succ k ih =>
    intro c hsz hk
    obtain ⟨db, mc, wc, q, amt, out⟩ := c
    cases q with
    | nil => simp at hk
    | cons front rest =>
      obtain ⟨r, hf, hs⟩ :=
        settle_item_spec add ⟨db, mc, wc, front :: rest, amt, out⟩ front.isbn hsz
      simp only at hf hs
      simp only [Checkout.do_checkout_loop, queue_front, bind, Except.bind, hf, hs, queue_pop]
      rw [ih ⟨db, mc, wc, rest, _, _⟩ hsz (by simpa using hk)]
      simp

/-- The loop of `move_books_to_checkout` run for `k` iterations on a cart of at
least `k` books enqueues the top `k` books, the top one first. -/
theorem move_books_loop_spec : ∀ (k : Nat) (c : Checkout),
    k ≤ c.working_cart_.length →
    Checkout.move_books_loop k c =
      .ok { c with
        working_cart_ := c.working_cart_.drop k,
        checkout_counter_ := c.checkout_counter_ ++ c.working_cart_.take k } := by
  intro k
  induction k with
  | zero => intro c _; simp [Checkout.move_books_loop]
  | succ k ih =>
    intro c hk
    obtain ⟨db, mc, wc, q, amt, out⟩ := c
    cases wc with
    | nil => simp at hk
    | cons top rest =>
      simp only [Checkout.move_books_loop, stack_top, bind, Except.bind, stack_pop, queue_push]
      rw [ih ⟨db, mc, rest, _, amt, out⟩ (by simpa using hk)]
      simp

/-! ## The session operations -/

/-- What `switch_carts` does on a non-empty source cart. -/
theorem switch_carts_spec (depth : Nat) (c : Checkout)
    (hn : 1 ≤ c.my_cart_.length) (hsz : c.my_cart_.length < SIZE_MOD)
    (hdepth : c.my_cart_.length ≤ depth) :
    Checkout.switch_carts depth c =
      .ok { c with my_cart_ := [], working_cart_ := c.my_cart_ ++ c.working_cart_ } := by
  obtain ⟨σ2, hrun, g1, g2, _, _⟩ :=
    transfer_spec c.my_cart_.length hn hsz depth .mine .working .spare
      ⟨c.my_cart_, c.working_cart_, [], []⟩ c.my_cart_ [] hdepth
      (by decide) (by decide) (by decide) (by simp [Carts.get]) rfl
  have e1 : σ2.my_cart = [] := g1
  have e2 : σ2.working_cart = c.my_cart_ ++ c.working_cart_ := g2
  simp only [Checkout.switch_carts, Nat.mod_eq_of_lt hsz, hrun, bind, Except.bind, pure,
    Except.pure, e1, e2]

/-- What `move_books_to_checkout` does on a cart whose size fits an `int`. -/
theorem move_books_to_checkout_spec (c : Checkout)
    (hsz : c.working_cart_.length < 2147483648) :
    Checkout.move_books_to_checkout c =
      .ok { c with working_cart_ := [],
                   checkout_counter_ := c.checkout_counter_ ++ c.working_cart_ } := by
  simp only [Checkout.move_books_to_checkout, int_of_size_small _ hsz]
  rw [move_books_loop_spec _ c (le_refl _)]
  simp

/-- What `do_checkout` does on a queue and a catalog whose sizes fit an `int`. -/
theorem do_checkout_spec (add : ℚ → ℚ → ℚ) (c : Checkout)
    (hq : c.checkout_counter_.length < 2147483648)
    (hdb : (c.book_database_.database_.length : Int) ≤ INT_MAX) :
    Checkout.do_checkout add c =
      .ok { c with
        checkout_counter_ := [],
        amount_due_ := c.checkout_counter_.foldl
          (fun due b => charged add c.book_database_ due b.isbn) c.amount_due_,
        cout := c.cout ++
          c.checkout_counter_.map (fun b => receipt_line c.book_database_ b.isbn) ++
          [.rule, .total (c.checkout_counter_.foldl
            (fun due b => charged add c.book_database_ due b.isbn) c.amount_due_)] } := by
  simp only [Checkout.do_checkout, int_of_size_small _ hq]
  rw [do_checkout_loop_spec add _ c hdb (le_refl _)]
  simp [bind, Except.bind, pure, Except.pure]

/-- The charge for an identifier that no record has is zero; otherwise it is the
price of the first record that has it. -/
theorem charge_spec (db : BookDatabase) (isbn : String)
    (hdb : (db.database_.length : Int) ≤ INT_MAX) :
    ((∀ b ∈ db.database_, b.isbn ≠ isbn) ∧ db.find isbn = .ok none ∧ charge db isbn = 0) ∨
    (∃ m, ∃ hm : m < db.database_.length, db.find isbn = .ok (some m) ∧
      (db.database_[m]).isbn = isbn ∧ charge db isbn = (db.database_[m]).price) := by
  rcases find_total db isbn hdb with ⟨hf, hno⟩ | ⟨m, hm, hf, hd, hi⟩
  · exact Or.inl ⟨hno, hf, by simp [charge, hf]⟩
  · exact Or.inr ⟨m, hm, hf, hi, by simp [charge, hf, hd]⟩

/-- The line for an identifier that no record has is the not-found line;
otherwise it is the priced line of the first record that has it. -/
theorem receipt_line_spec (db : BookDatabase) (isbn : String)
    (hdb : (db.database_.length : Int) ≤ INT_MAX) :
    ((∀ b ∈ db.database_, b.isbn ≠ isbn) ∧ receipt_line db isbn = .not_found isbn) ∨
    (∃ m, ∃ hm : m < db.database_.length, (db.database_[m]).isbn = isbn ∧
      receipt_line db isbn = .priced (db.database_[m])) := by
  rcases find_total db isbn hdb with ⟨hf, hno⟩ | ⟨m, hm, hf, hd, hi⟩
  · exact Or.inl ⟨hno, by simp [receipt_line, hf]⟩
  · exact Or.inr ⟨m, hm, hi, by simp [receipt_line, hf, hd]⟩

theorem replay_cons (σ : Carts) (e : Event) (rest : List Event) :
    replay σ (e :: rest) = (e.apply σ).bind (fun σ1 => replay σ1 rest) := rfl

theorem replay_append (σ : Carts) (a b : List Event) :
    replay σ (a ++ b) = (replay σ a).bind (fun σ1 => replay σ1 b) := by
  induction a generalizing σ with
  | nil => rfl
  | cons e rest ih =>
    simp only [List.cons_append, replay]
    cases e.apply σ with
    | none => rfl
    | some σ1 => exact ih σ1

/-- A successful primitive move between two different carts took the top book
of the first and put it onto the second. -/
theorem move_top_book_inv (src dst : CartRef) (σ σm : Carts) (hne : src ≠ dst)
    (h : move_top_book src dst σ = .ok σm) :
    ∃ x rest, σ.get src = x :: rest ∧
      σm = ((σ.set dst (x :: σ.get dst)).set src rest).record (.moved src dst x) := by
  cases hs : σ.get src with
  | nil =>
    simp [move_top_book, hs, stack_top, bind, Except.bind] at h
  | cons x rest =>
    refine ⟨x, rest, rfl, ?_⟩
    simp only [move_top_book, hs, stack_top, stack_push, bind, Except.bind,
      get_set_other _ dst src _ hne, stack_pop, pure, Except.pure] at h
    cases h
    rfl

theorem apply_moved (src dst : CartRef) (σ : Carts) (x : Book) (rest : List Book)
    (hne : src ≠ dst) (hs : σ.get src = x :: rest) :
    (Event.moved src dst x).apply σ =
      some (((σ.set dst (x :: σ.get dst)).set src rest).record (.moved src dst x)) := by
  simp [Event.apply, hs, hne]

/-- Whatever a transfer between three different carts returns is reached by
replaying the events it recorded. -/
theorem transfer_replay : ∀ (depth quantity : Nat) (src dst tmp : CartRef) (σ σ2 : Carts),
    src ≠ dst → src ≠ tmp → dst ≠ tmp →
    carefully_move_books depth quantity src dst tmp σ = .ok σ2 →
    ∃ evs, σ2.events = σ.events ++ evs ∧ replay σ evs = some σ2 := by
  intro depth
  induction depth with
  | zero =>
    intro quantity src dst tmp σ σ2 _ _ _ h
    simp [carefully_move_books] at h
  | succ d ih =>
    intro quantity src dst tmp σ σ2 h1 h2 h3 h
    by_cases hq : quantity = 1
    · rw [carefully_move_books, if_pos hq] at h
      cases hm : move_top_book src dst σ with
      | error e => simp [hm, bind, Except.bind] at h
      | ok σm =>
        simp only [hm, bind, Except.bind, pure, Except.pure] at h
        cases h
        obtain ⟨x, rest, hs, rfl⟩ := move_top_book_inv src dst σ σm h1 hm
        refine ⟨[Event.moved src dst x, Event.traced src dst tmp], ?_, ?_⟩
        · simp [trace, events_record, events_set]
        · rw [replay_cons, apply_moved src dst σ x rest h1 hs]
          rfl
    · rw [carefully_move_books, if_neg hq] at h
      cases hc1 : carefully_move_books d ((quantity + (SIZE_MOD - 1)) % SIZE_MOD) src tmp dst σ with
      | error e => simp [hc1, bind, Except.bind] at h
      | ok σ1 =>
        simp only [hc1, bind, Except.bind] at h
        cases hm : move_top_book src dst σ1 with
        | error e => simp [hm] at h
        | ok σm =>
          simp only [hm] at h
          obtain ⟨ev1, he1, hr1⟩ := ih _ src tmp dst σ σ1 h2 h1 (Ne.symm h3) hc1
          obtain ⟨x, rest, hs, rfl⟩ := move_top_book_inv src dst σ1 σm h1 hm
          obtain ⟨ev2, he2, hr2⟩ := ih _ tmp dst src _ σ2 (Ne.symm h3) (Ne.symm h2) (Ne.symm h1) h
          refine ⟨ev1 ++ ([Event.moved src dst x, Event.traced src tmp dst] ++ ev2), ?_, ?_⟩
          · rw [he2]
            simp [trace, events_record, events_set, he1]
          · rw [replay_append, hr1]
            show replay σ1 (Event.moved src dst x :: Event.traced src tmp dst :: ev2) = some σ2
            rw [replay_cons, apply_moved src dst σ1 x rest h1 hs]
            exact hr2

/-- Replaying a record replays each of its initial segments. -/
theorem replay_prefix (σ σ2 : Carts) (p q : List Event)
    (h : replay σ (p ++ q) = some σ2) :
    ∃ σp, replay σ p = some σp ∧ replay σp q = some σ2 := by
  rw [replay_append] at h
  cases hp : replay σ p with
  | none => simp [hp] at h
  | some σp => exact ⟨σp, rfl, by simpa [hp] using h⟩

/-- What one event does, when it can be replayed: a move takes the top book of
one cart, puts it onto a different cart and leaves the third cart alone; a call
of `trace` changes no cart. -/
theorem apply_spec (σ σ1 : Carts) (e : Event) (h : e.apply σ = some σ1) :
    (∃ src dst book, e = .moved src dst book ∧ src ≠ dst ∧
      σ.get src = book :: σ1.get src ∧ σ1.get dst = book :: σ.get dst ∧
      ∀ r, r ≠ src → r ≠ dst → σ1.get r = σ.get r) ∨
    (∃ a b c, e = .traced a b c ∧ ∀ r, σ1.get r = σ.get r) := by
  cases e with
  | moved src dst book =>
    left
    refine ⟨src, dst, book, rfl, ?_⟩
    cases hs : σ.get src with
    | nil => simp [Event.apply, hs] at h
    | cons top rest =>
      by_cases hc : src ≠ dst ∧ top = book
      · simp only [Event.apply, hs, if_pos hc, Option.some.injEq] at h
        obtain ⟨hne, rfl⟩ := hc
        subst h
        refine ⟨hne, ?_, ?_, ?_⟩
        · rw [get_record, get_set_same]
        · rw [get_record, get_set_other _ src dst _ (Ne.symm hne), get_set_same]
        · intro r hr1 hr2
          rw [get_record, get_set_other _ src r _ hr1, get_set_other _ dst r _ hr2]
      · simp [Event.apply, hs, hc] at h
  | traced a b c =>
    right
    refine ⟨a, b, c, rfl, ?_⟩
    simp only [Event.apply, Option.some.injEq] at h
    subst h
    intro r
    rw [get_record]

/-- One replayed event neither loses nor duplicates a book. -/
theorem apply_preserves_books (σ σ1 : Carts) (e : Event) (h : e.apply σ = some σ1) :
    (all_books σ1).Perm (all_books σ) := by
  rcases apply_spec σ σ1 e h with ⟨src, dst, book, _, hne, h1, h2, h3⟩ | ⟨_, _, _, _, hsame⟩
  · rw [List.perm_iff_count]
    intro a
    cases src <;> cases dst <;>
      first
      | exact absurd rfl hne
      | (simp only [Carts.get] at h1 h2
         have h4 := h3 .mine
         have h5 := h3 .working
         have h6 := h3 .spare
         simp only [Carts.get] at h4 h5 h6
         simp only [all_books, List.count_append, h1, h2, List.count_cons]
         simp_all
         omega)
  · have e1 := hsame .mine
    have e2 := hsame .working
    have e3 := hsame .spare
    simp only [Carts.get] at e1 e2 e3
    simp [all_books, e1, e2, e3]

/-- Replaying a record neither loses nor duplicates a book. -/
theorem replay_preserves_books (evs : List Event) : ∀ (σ σ2 : Carts),
    replay σ evs = some σ2 → (all_books σ2).Perm (all_books σ) := by
  induction evs with
  | nil =>
    intro σ σ2 h
    simp only [replay, Option.some.injEq] at h
    subst h
    exact List.Perm.refl _
  | cons e rest ih =>
    intro σ σ2 h
    simp only [replay] at h
    cases he : e.apply σ with
    | none => simp [he] at h
    | some σ1 =>
      simp only [he, Option.bind] at h
      exact (ih σ1 σ2 h).trans (apply_preserves_books σ σ1 e he)

/-! ## The call depth of a transfer -/

/-- A transfer of `n` books given a call depth below `n` runs out of call depth
before it touches a cart. -/
theorem transfer_shallow : ∀ (depth n : Nat) (src dst tmp : CartRef) (σ : Carts),
    1 ≤ n → n < SIZE_MOD → depth < n →
    carefully_move_books depth n src dst tmp σ = .error .call_depth := by
  intro depth
  induction depth with
  | zero => intro n src dst tmp σ _ _ _; rfl
  | succ d ih =>
    intro n src dst tmp σ hn hsz hd
    have hne1 : ¬ (n = 1) := by omega
    rw [carefully_move_books, if_neg hne1, size_pred n hn hsz,
      ih (n - 1) src tmp dst σ (by omega) (by omega) (by omega)]
    rfl

/-- One unfolding of `carefully_move_books`. -/
theorem carefully_move_books_succ (depth quantity : Nat) (src dst tmp : CartRef) (σ : Carts) :
    carefully_move_books (depth + 1) quantity src dst tmp σ =
      if quantity = 1 then
        (move_top_book src dst σ).bind (fun σ1 => .ok (trace src dst tmp σ1))
      else
        (carefully_move_books depth ((quantity + (SIZE_MOD - 1)) % SIZE_MOD) src tmp dst σ).bind
          (fun σ1 => (move_top_book src dst σ1).bind
            (fun σm => carefully_move_books depth ((quantity + (SIZE_MOD - 1)) % SIZE_MOD)
              tmp dst src (trace src tmp dst σm))) := by
  rw [carefully_move_books]
  rfl

/-- A transfer that returns within some call depth returns the same carts with
one more level of call depth. -/
theorem transfer_depth_succ : ∀ (depth quantity : Nat) (src dst tmp : CartRef) (σ σ2 : Carts),
    carefully_move_books depth quantity src dst tmp σ = .ok σ2 →
    carefully_move_books (depth + 1) quantity src dst tmp σ = .ok σ2 := by
  intro depth
  induction depth with
  | zero =>
    intro quantity src dst tmp σ σ2 h
    simp [carefully_move_books] at h
  | succ d ih =>
    intro quantity src dst tmp σ σ2 h
    rw [carefully_move_books_succ] at h
    rw [carefully_move_books_succ (d + 1)]
    by_cases hq : quantity = 1
    · rw [if_pos hq] at h ⊢
      exact h
    · rw [if_neg hq] at h ⊢
      cases hc1 : carefully_move_books d ((quantity + (SIZE_MOD - 1)) % SIZE_MOD) src tmp dst σ with
      | error e => rw [hc1] at h; cases h
      | ok σ1 =>
        rw [hc1] at h
        rw [ih _ src tmp dst σ σ1 hc1]
        simp only [Except.bind] at h ⊢
        cases hm : move_top_book src dst σ1 with
        | error e => rw [hm] at h; cases h
        | ok σm =>
          rw [hm] at h
          simp only at h ⊢
          exact ih ((quantity + (SIZE_MOD - 1)) % SIZE_MOD) tmp dst src (trace src tmp dst σm) σ2 h

/-- A transfer that returns within some call depth returns the same carts within
any larger call depth. -/
theorem transfer_depth_mono (d depth quantity : Nat) (src dst tmp : CartRef) (σ σ2 : Carts)
    (hd : d ≤ depth) (h : carefully_move_books d quantity src dst tmp σ = .ok σ2) :
    carefully_move_books depth quantity src dst tmp σ = .ok σ2 := by
  induction depth, hd using Nat.le_induction with
  | base => exact h
  | succ k _ ih => exact transfer_depth_succ k quantity src dst tmp σ σ2 ih

/-- The catalog built by the constructor holds the books read, in order. -/
theorem read_books_database (books : List Book) :
    (BookDatabase.read_books books).database_ = books := by
  have hgen : ∀ (l acc : List Book),
      (l.foldl (fun (db : BookDatabase) temp => ⟨db.database_ ++ [temp]⟩) ⟨acc⟩).database_
        = acc ++ l := by
    intro l
    induction l with
    | nil => intro acc; simp
    | cons b rest ih => intro acc; simp [List.foldl, ih]
  simpa [BookDatabase.read_books] using hgen books []

/-- A sequence of calls leaves the catalog as it was, and each call of the
sequence answers what it answers on that catalog. -/
theorem call_all_spec (db : BookDatabase) (qs : List Query) :
    (db.call_all qs).2 = db ∧ (db.call_all qs).1 = qs.map (fun q => (db.call q).1) := by
  induction qs with
  | nil => exact ⟨rfl, rfl⟩
  | cons q rest ih =>
    have hq : (db.call q).2 = db := by cases q <;> rfl
    simp only [BookDatabase.call_all, hq, ih.1, ih.2, List.map_cons, and_self]

/-! ## The arithmetic of doubles and the running total -/

/-- C1: for every count `n ≥ 1` (a `std::size_t`) and every source cart holding
exactly `n` books, the two other carts being empty, `carefully_move_books`
returns, given a call depth of at least `n`, with the source and the spare cart
empty and the destination holding the `n` books in the top-to-bottom order the
source had. -/
theorem C1_transfer_moves_all_in_order (n depth : Nat) (src dst tmp : CartRef) (σ : Carts)
    (hn : 1 ≤ n) (hsz : n < SIZE_MOD) (hdepth : n ≤ depth)
    (h1 : src ≠ dst) (h2 : src ≠ tmp) (h3 : dst ≠ tmp)
    (hlen : (σ.get src).length = n) (hdst : σ.get dst = []) (htmp : σ.get tmp = []) :
    ∃ σ2, carefully_move_books depth n src dst tmp σ = .ok σ2 ∧
      σ2.get src = [] ∧ σ2.get tmp = [] ∧ σ2.get dst = σ.get src := by
  obtain ⟨σ2, hrun, g1, g2, g3, _⟩ :=
    transfer_spec n hn hsz depth src dst tmp σ (σ.get src) [] hdepth h1 h2 h3 (by simp) hlen
  exact ⟨σ2, hrun, g1, by rw [g3, htmp], by rw [g2, hdst]; simp⟩

/-- The five books of the scenario are moved from `my_cart_` to the working cart
in order. -/
theorem C1_witness :
    ∃ σ2, carefully_move_books 5 5 .mine .working .spare ⟨five_books, [], [], []⟩ = .ok σ2 ∧
      σ2.get .mine = [] ∧ σ2.get .spare = [] ∧ σ2.get .working = five_books :=
  C1_transfer_moves_all_in_order 5 5 .mine .working .spare ⟨five_books, [], [], []⟩
    (by decide) (by decide) (by decide) (by decide) (by decide) (by decide) rfl rfl rfl

/-- C3: for every catalog (whose size fits the `int` index) and every identifier
that occurs in it, `find` returns the record at the lowest index whose
identifier equals the query: the record it points to has the identifier, and no
record at a lower index has it. -/
theorem C3_find_returns_first_match (db : BookDatabase) (isbn : String)
    (hsz : (db.database_.length : Int) ≤ INT_MAX)
    (hocc : ∃ i, ∃ hi : i < db.database_.length, (db.database_[i]).isbn = isbn) :
    ∃ m, ∃ hm : m < db.database_.length,
      db.find isbn = .ok (some m) ∧ db.deref m = some (db.database_[m]) ∧
      (db.database_[m]).isbn = isbn ∧
      ∀ j, (hj : j < m) → (db.database_[j]).isbn ≠ isbn := by
  obtain ⟨i, hi, hii⟩ := hocc
  obtain ⟨m, hm, hf, hmi, hmin⟩ :=
    find_present db isbn hsz ⟨db.database_[i], List.getElem_mem hi, hii⟩
  exact ⟨m, hm, hf, by simp [BookDatabase.deref, hm], hmi, hmin⟩

/-- In the catalog of the scenario followed by a second copy of its Les Mis
record, the identifier of Les Mis is at indices 1 and 2, and `find` returns
index 1. -/
theorem C3_witness :
    (BookDatabase.mk (scenario_catalog.database_ ++ scenario_catalog.database_.drop 1)).find
      "0140444300" = .ok (some 1) := by
  obtain ⟨m, hm, hf, _, hi, hmin⟩ :=
    C3_find_returns_first_match
      (BookDatabase.mk (scenario_catalog.database_ ++ scenario_catalog.database_.drop 1))
      "0140444300" (by simp [scenario_catalog, INT_MAX])
      ⟨2, by simp [scenario_catalog], by simp [scenario_catalog]⟩
  have hm1 : m = 1 := by
    rcases Nat.lt_trichotomy m 1 with h | h | h
    · have h0 : m = 0 := by omega
      subst h0
      simp [scenario_catalog] at hi
    · exact h
    · exact absurd (by simp [scenario_catalog]) (hmin 1 h)
  rw [hf, hm1]

/-- C4: for every catalog (whose size fits the `int` index), the empty one
included, and every identifier, `find` returns `nullptr` exactly when no record
of the catalog has that identifier. -/
theorem C4_find_not_found_iff_absent (db : BookDatabase) (isbn : String)
    (hsz : (db.database_.length : Int) ≤ INT_MAX) :
    db.find isbn = .ok none ↔ ∀ b ∈ db.database_, b.isbn ≠ isbn := by
  constructor
  · intro hf b hb hbi
    obtain ⟨m, _, hfm, _⟩ := find_present db isbn hsz ⟨b, hb, hbi⟩
    rw [hfm] at hf
    cases hf
  · exact find_absent db isbn hsz

/-- On the empty catalog every lookup returns `nullptr`. -/
theorem C4_witness :
    (BookDatabase.mk []).find "9780545310581" = .ok none :=
  (C4_find_not_found_iff_absent (BookDatabase.mk []) "9780545310581"
    (by simp [INT_MAX])).mpr (by simp)

/-- C5: `carefully_move_books` called with count 0 on three empty carts does not
return with the carts unchanged: whatever the call depth, it faults, and so does
`switch_carts` on a session whose source cart is empty. -/
theorem C5_zero_count_faults (depth : Nat) (db : BookDatabase) :
    (∃ e, carefully_move_books depth 0 .mine .working .spare ⟨[], [], [], []⟩ = .error e) ∧
    (∃ e, Checkout.switch_carts depth (Checkout.fresh db) = .error e) := by
  constructor
  · exact transfer_empty_source_faults depth 0 .mine .working .spare ⟨[], [], [], []⟩ rfl
  · obtain ⟨e, he⟩ :=
      transfer_empty_source_faults depth 0 .mine .working .spare ⟨[], [], [], []⟩ rfl
    refine ⟨e, ?_⟩
    simp only [Checkout.switch_carts, Checkout.fresh, List.length_nil, Nat.zero_mod, he,
      bind, Except.bind]

/-- C6: for every source cart holding `n ≥ 1` books and an empty working cart,
`switch_carts` returns, given a call depth of at least `n`, with the source cart
empty and the working cart holding those books in the same top-to-bottom order;
nothing else in the session changes. -/
theorem C6_switch_carts_keeps_order (depth : Nat) (c : Checkout)
    (hn : 1 ≤ c.my_cart_.length) (hsz : c.my_cart_.length < SIZE_MOD)
    (hdepth : c.my_cart_.length ≤ depth) (hempty : c.working_cart_ = []) :
    ∃ c2, Checkout.switch_carts depth c = .ok c2 ∧
      c2.my_cart_ = [] ∧ c2.working_cart_ = c.my_cart_ ∧
      c2.checkout_counter_ = c.checkout_counter_ ∧ c2.amount_due_ = c.amount_due_ ∧
      c2.book_database_ = c.book_database_ ∧ c2.cout = c.cout := by
  refine ⟨_, switch_carts_spec depth c hn hsz hdepth, rfl, ?_, rfl, rfl, rfl, rfl⟩
  simp [hempty]

/-- After shopping on a fresh session, `switch_carts` puts the five books into
the working cart in the same order. -/
theorem C6_witness :
    ∃ c2, Checkout.switch_carts 5 (Checkout.shop_for_books (Checkout.fresh scenario_catalog))
        = .ok c2 ∧
      c2.my_cart_ = [] ∧
      c2.working_cart_ = (Checkout.shop_for_books (Checkout.fresh scenario_catalog)).my_cart_ ∧
      c2.checkout_counter_ =
        (Checkout.shop_for_books (Checkout.fresh scenario_catalog)).checkout_counter_ ∧
      c2.amount_due_ = (Checkout.shop_for_books (Checkout.fresh scenario_catalog)).amount_due_ ∧
      c2.book_database_ =
        (Checkout.shop_for_books (Checkout.fresh scenario_catalog)).book_database_ ∧
      c2.cout = (Checkout.shop_for_books (Checkout.fresh scenario_catalog)).cout :=
  C6_switch_carts_keeps_order 5 (Checkout.shop_for_books (Checkout.fresh scenario_catalog))
    (by decide) (by decide) (by decide) rfl

/-- C7, as stated, fails: with the five books in the working cart and an empty
counter, the queue that `move_books_to_checkout` builds is not the reverse of
the cart, and its front is not the book that was at the bottom of the cart. -/
theorem C7_counterexample :
    ∃ c, Checkout.move_books_to_checkout scenario_in_working_cart = .ok c ∧
      c.checkout_counter_ ≠ scenario_in_working_cart.working_cart_.reverse ∧
      c.checkout_counter_.head? ≠ scenario_in_working_cart.working_cart_.getLast? := by
  refine ⟨_, move_books_to_checkout_spec scenario_in_working_cart (by decide), ?_, ?_⟩
  · simp [scenario_in_working_cart, Checkout.fresh, five_books]
  · simp [scenario_in_working_cart, Checkout.fresh, five_books]

/-- C7, amended: for every working cart (whose size fits the `int` counter) and
an initially empty checkout queue, after `move_books_to_checkout` the queue read
from front to back is the working cart read from top to bottom: the first item
dequeued is the item that was on top of the working cart. The cart is left
empty. -/
theorem C7_queue_order_is_cart_order (c : Checkout)
    (hsz : c.working_cart_.length < 2147483648) (hempty : c.checkout_counter_ = []) :
    ∃ c2, Checkout.move_books_to_checkout c = .ok c2 ∧
      c2.checkout_counter_ = c.working_cart_ ∧
      c2.checkout_counter_.head? = c.working_cart_.head? ∧
      c2.working_cart_ = [] := by
  refine ⟨_, move_books_to_checkout_spec c hsz, ?_, ?_, rfl⟩
  · simp [hempty]
  · simp [hempty]

/-- With the five books in the working cart, the queue holds them from
Like the Animals at the front to Hunger Games at the back. -/
theorem C7_witness :
    ∃ c2, Checkout.move_books_to_checkout scenario_in_working_cart = .ok c2 ∧
      c2.checkout_counter_ = scenario_in_working_cart.working_cart_ ∧
      c2.checkout_counter_.head? = scenario_in_working_cart.working_cart_.head? ∧
      c2.working_cart_ = [] :=
  C7_queue_order_is_cart_order scenario_in_working_cart (by decide) rfl

/-- C8, as stated, fails: on a fresh session, after `shop_for_books`,
`switch_carts` and `move_books_to_checkout`, the book at the front of the
checkout queue is Like the Animals, not Hunger Games. -/
theorem C8_counterexample :
    ∃ c, (Checkout.switch_carts 5 (Checkout.shop_for_books (Checkout.fresh scenario_catalog))
        >>= Checkout.move_books_to_checkout) = .ok c ∧
      c.checkout_counter_.head?.map Book.title = some "Like the Animals" ∧
      c.checkout_counter_.head?.map Book.title ≠ some "Hunger Games" := by
  have h1 := switch_carts_spec 5 (Checkout.shop_for_books (Checkout.fresh scenario_catalog))
    (by decide) (by decide) (by decide)
  rw [h1]
  refine ⟨_, move_books_to_checkout_spec _ (by decide), ?_, ?_⟩
  · simp [Checkout.shop_for_books, Checkout.fresh, stack_push]
  · simp [Checkout.shop_for_books, Checkout.fresh, stack_push]

/-- C8, amended: on a session whose three containers are empty, after
`shop_for_books`, `switch_carts` (given a call depth of at least 5) and
`move_books_to_checkout`, the checkout queue holds, from front to back,
Like the Animals, 131 Answer Key, Les Mis, Eat pray love, Hunger Games: the
item at its front, the first one settled, is Like the Animals (the last-pushed,
top book of the cart) and Hunger Games is the last one. -/
theorem C8_front_of_queue_is_top_of_cart (depth : Nat) (c : Checkout)
    (hdepth : 5 ≤ depth) (hmine : c.my_cart_ = []) (hwork : c.working_cart_ = [])
    (hqueue : c.checkout_counter_ = []) :
    ∃ c2, (Checkout.switch_carts depth (Checkout.shop_for_books c)
        >>= Checkout.move_books_to_checkout) = .ok c2 ∧
      c2.checkout_counter_ = five_books ∧
      c2.checkout_counter_.head?.map Book.title = some "Like the Animals" ∧
      c2.checkout_counter_.getLast?.map Book.title = some "Hunger Games" ∧
      c2.my_cart_ = [] ∧ c2.working_cart_ = [] := by
  obtain ⟨db, mc, wc, q, amt, out⟩ := c
  simp only at hmine hwork hqueue
  subst hmine hwork hqueue
  have hlen : (Checkout.shop_for_books ⟨db, [], [], [], amt, out⟩).my_cart_.length = 5 := rfl
  have h1 := switch_carts_spec depth (Checkout.shop_for_books ⟨db, [], [], [], amt, out⟩)
    (by rw [hlen]; decide) (by rw [hlen]; decide) (by rw [hlen]; exact hdepth)
  rw [h1]
  have hlen2 : ((Checkout.shop_for_books ⟨db, [], [], [], amt, out⟩).my_cart_ ++
      (Checkout.shop_for_books ⟨db, [], [], [], amt, out⟩).working_cart_).length = 5 := rfl
  refine ⟨_, move_books_to_checkout_spec _ (by simp only [hlen2]; decide), ?_, ?_, ?_, rfl, rfl⟩
  · simp [Checkout.shop_for_books, stack_push, five_books]
  · simp [Checkout.shop_for_books, stack_push]
  · simp [Checkout.shop_for_books, stack_push]

/-- The fresh session of the scenario, with call depth 5. -/
theorem C8_witness :
    ∃ c, (Checkout.switch_carts 5 (Checkout.shop_for_books (Checkout.fresh scenario_catalog))
        >>= Checkout.move_books_to_checkout) = .ok c ∧
      c.checkout_counter_ = five_books ∧
      c.checkout_counter_.head?.map Book.title = some "Like the Animals" ∧
      c.checkout_counter_.getLast?.map Book.title = some "Hunger Games" ∧
      c.my_cart_ = [] ∧ c.working_cart_ = [] :=
  C8_front_of_queue_is_top_of_cart 5 (Checkout.fresh scenario_catalog) (by decide) rfl rfl rfl

/-- C10: for every catalog and every checkout queue (whose sizes fit the `int`
counters) and whatever the addition of doubles is, `do_checkout` returns without fault and prints exactly one line per
item queued at the start, in front-to-back order, followed by the separator and
the total; the line of an item is a priced line (of the first catalog record
with its identifier) when some catalog record has its identifier, and the
not-found line otherwise. -/
theorem C10_one_line_per_item (add : ℚ → ℚ → ℚ) (c : Checkout)
    (hq : c.checkout_counter_.length < 2147483648)
    (hdb : (c.book_database_.database_.length : Int) ≤ INT_MAX) :
    (∃ c2, Checkout.do_checkout add c = .ok c2 ∧
      c2.cout = c.cout ++
        c.checkout_counter_.map (fun b => receipt_line c.book_database_ b.isbn) ++
        [.rule, .total c2.amount_due_]) ∧
    ∀ isbn,
      ((∀ b ∈ c.book_database_.database_, b.isbn ≠ isbn) ∧
        receipt_line c.book_database_ isbn = .not_found isbn) ∨
      (∃ m, ∃ hm : m < c.book_database_.database_.length,
        (c.book_database_.database_[m]).isbn = isbn ∧
        receipt_line c.book_database_ isbn = .priced (c.book_database_.database_[m])) :=
  ⟨⟨_, do_checkout_spec add c hq hdb, rfl⟩,
    fun isbn => receipt_line_spec c.book_database_ isbn hdb⟩

/-- The scenario: the five books against a catalog holding only Hunger Games and
Les Mis give 2 priced lines and 3 not-found lines. -/
theorem C10_witness :
    ∃ c2, Checkout.do_checkout double_add scenario_at_counter = .ok c2 ∧
      c2.cout.countP ReceiptLine.is_priced = 2 ∧
      c2.cout.countP ReceiptLine.is_not_found = 3 := by
  obtain ⟨⟨c2, hrun, hout⟩, _⟩ :=
    C10_one_line_per_item double_add scenario_at_counter (by decide)
      (by simp [scenario_at_counter, Checkout.fresh, scenario_catalog, INT_MAX])
  refine ⟨c2, hrun, ?_⟩
  rw [hout]
  simp [scenario_at_counter, Checkout.fresh, scenario_catalog, five_books, receipt_line,
    BookDatabase.find, BookDatabase.find_helper_function, BookDatabase.deref, INT_MAX,
    ReceiptLine.is_priced, ReceiptLine.is_not_found, List.countP_cons]

/-- C11: for every working cart holding `k` books (`k` within the range of the
`int` counter) and every checkout queue, `move_books_to_checkout` runs its loop
body, pop the top and enqueue it, exactly `k` times: after `j ≤ k` iterations
the cart has lost its top `j` books and the queue has gained them at the back in
the order they were popped; at the end the cart is empty and the queue is its
previous contents, still in front, followed by the `k` books, the top one
first. Nothing else in the session changes. -/
theorem C11_cart_drained_into_queue (c : Checkout)
    (hsz : c.working_cart_.length < 2147483648) :
    Checkout.move_books_to_checkout c = Checkout.move_books_loop c.working_cart_.length c ∧
    (∀ j, j ≤ c.working_cart_.length →
      ∃ cj, Checkout.move_books_loop j c = .ok cj ∧
        cj.working_cart_ = c.working_cart_.drop j ∧
        cj.checkout_counter_ = c.checkout_counter_ ++ c.working_cart_.take j) ∧
    ∃ c2, Checkout.move_books_to_checkout c = .ok c2 ∧
      c2.working_cart_ = [] ∧
      c2.checkout_counter_ = c.checkout_counter_ ++ c.working_cart_ ∧
      c2.my_cart_ = c.my_cart_ ∧ c2.amount_due_ = c.amount_due_ ∧
      c2.book_database_ = c.book_database_ ∧ c2.cout = c.cout := by
  refine ⟨?_, ?_, ?_⟩
  · simp only [Checkout.move_books_to_checkout, int_of_size_small _ hsz]
  · intro j hj
    exact ⟨_, move_books_loop_spec j c hj, rfl, rfl⟩
  · exact ⟨_, move_books_to_checkout_spec c hsz, rfl, rfl, rfl, rfl, rfl, rfl⟩

/-- With two books already on the counter and the five books in the working
cart, the counter ends with its two books in front, followed by the five. -/
theorem C11_witness :
    ∃ c2, Checkout.move_books_to_checkout
        { scenario_in_working_cart with checkout_counter_ := scenario_catalog.database_ }
        = .ok c2 ∧
      c2.working_cart_ = [] ∧
      c2.checkout_counter_ = scenario_catalog.database_ ++ five_books := by
  obtain ⟨_, _, c2, hrun, hw, hq, _⟩ :=
    C11_cart_drained_into_queue
      { scenario_in_working_cart with checkout_counter_ := scenario_catalog.database_ }
      (by decide)
  exact ⟨c2, hrun, hw, hq⟩

/-- C12: `find` and `size` leave the record sequence of the catalog unchanged:
after any sequence of calls of `size()` and `find(identifier)`, in any
interleaving, the catalog is the one the constructor built, each call has
returned what the same call returns on that catalog, and `size()` is the number
of records loaded (a number within the range of `std::size_t`). -/
theorem C12_lookups_leave_catalog_unchanged (books : List Book) (qs : List Query)
    (hsz : books.length < SIZE_MOD) :
    ((BookDatabase.read_books books).call_all qs).2 = BookDatabase.read_books books ∧
    ((BookDatabase.read_books books).call_all qs).2.database_ = books ∧
    ((BookDatabase.read_books books).call_all qs).1 =
      qs.map (fun q => ((BookDatabase.read_books books).call q).1) ∧
    (BookDatabase.read_books books).size = books.length := by
  obtain ⟨h1, h2⟩ := call_all_spec (BookDatabase.read_books books) qs
  refine ⟨h1, ?_, h2, ?_⟩
  · rw [h1, read_books_database]
  · rw [BookDatabase.size, read_books_database, Nat.mod_eq_of_lt hsz]

/-- On the catalog of the scenario, the calls `size`, `find`, `size`, `find`
answer 2, index 1, 2, index 1 and leave the two records in place. -/
theorem C12_witness :
    ((BookDatabase.read_books scenario_catalog.database_).call_all
        [.size, .find "0140444300", .size, .find "0140444300"]).2.database_
      = scenario_catalog.database_ ∧
    (BookDatabase.read_books scenario_catalog.database_).size = 2 := by
  obtain ⟨_, h2, _, h4⟩ :=
    C12_lookups_leave_catalog_unchanged scenario_catalog.database_
      [.size, .find "0140444300", .size, .find "0140444300"] (by decide)
  exact ⟨h2, h4⟩

/-- C13: for every count `n ≥ 1` (a `std::size_t`) and every source cart with at
least `n` books, whatever the two other carts hold, no step of
`carefully_move_books`, nested calls included, calls `top()` or `pop()` on an
empty stack: whatever the call depth, the call does not end in that fault, and
given a call depth of at least `n` it returns. -/
theorem C13_no_access_to_empty_stack (n depth : Nat) (src dst tmp : CartRef) (σ : Carts)
    (hn : 1 ≤ n) (hsz : n < SIZE_MOD)
    (h1 : src ≠ dst) (h2 : src ≠ tmp) (h3 : dst ≠ tmp)
    (hlen : n ≤ (σ.get src).length) :
    carefully_move_books depth n src dst tmp σ ≠ .error .empty_container ∧
    (n ≤ depth → ∃ σ2, carefully_move_books depth n src dst tmp σ = .ok σ2) := by
  have hok : n ≤ depth → ∃ σ2, carefully_move_books depth n src dst tmp σ = .ok σ2 := by
    intro hdepth
    obtain ⟨σ2, hrun, _⟩ :=
      transfer_spec n hn hsz depth src dst tmp σ ((σ.get src).take n) ((σ.get src).drop n)
        hdepth h1 h2 h3 (by simp) (by simp [hlen])
    exact ⟨σ2, hrun⟩
  refine ⟨?_, hok⟩
  by_cases hdepth : n ≤ depth
  · obtain ⟨σ2, hrun⟩ := hok hdepth
    rw [hrun]
    exact fun h => by cases h
  · rw [transfer_shallow depth n src dst tmp σ hn hsz (by omega)]
    exact fun h => by cases h

/-- Moving the top three of the five books onto a working cart that already holds
books touches no empty stack. -/
theorem C13_witness :
    carefully_move_books 3 3 .mine .working .spare ⟨five_books, five_books, [], []⟩
      ≠ .error .empty_container ∧
    (3 ≤ 3 → ∃ σ2, carefully_move_books 3 3 .mine .working .spare
      ⟨five_books, five_books, [], []⟩ = .ok σ2) :=
  C13_no_access_to_empty_stack 3 3 .mine .working .spare ⟨five_books, five_books, [], []⟩
    (by decide) (by decide) (by decide) (by decide) (by decide) (by decide)

/-- C14: during `carefully_move_books` (count `n ≥ 1`, source cart with at least
`n` books) the carts returned are reached by replaying the recorded events from
the initial carts, and every primitive move of the record is made on carts in
which its book is the top of one cart; it removes exactly that book, puts it on
top of a different cart and leaves the third cart alone, so that after the move
the books of the three carts together are, as a multiset, the initial ones. -/
theorem C14_moves_preserve_books (n depth : Nat) (src dst tmp : CartRef) (σ : Carts)
    (hn : 1 ≤ n) (hsz : n < SIZE_MOD) (hdepth : n ≤ depth)
    (h1 : src ≠ dst) (h2 : src ≠ tmp) (h3 : dst ≠ tmp)
    (hlen : n ≤ (σ.get src).length) :
    ∃ σ2 evs, carefully_move_books depth n src dst tmp σ = .ok σ2 ∧
      σ2.events = σ.events ++ evs ∧ replay σ evs = some σ2 ∧
      ((all_books σ2 : List Book) : Multiset Book) = (all_books σ : List Book) ∧
      ∀ p s d b q, evs = p ++ Event.moved s d b :: q →
        ∃ σp σq, replay σ p = some σp ∧ replay σ (p ++ [Event.moved s d b]) = some σq ∧
          s ≠ d ∧ σp.get s = b :: σq.get s ∧ σq.get d = b :: σp.get d ∧
          (∀ r, r ≠ s → r ≠ d → σq.get r = σp.get r) ∧
          ((all_books σq : List Book) : Multiset Book) = (all_books σ : List Book) := by
  obtain ⟨σ2, hrun, _⟩ :=
    transfer_spec n hn hsz depth src dst tmp σ ((σ.get src).take n) ((σ.get src).drop n)
      hdepth h1 h2 h3 (by simp) (by simp [hlen])
  obtain ⟨evs, hev, hrep⟩ := transfer_replay depth n src dst tmp σ σ2 h1 h2 h3 hrun
  refine ⟨σ2, evs, hrun, hev, hrep, ?_, ?_⟩
  · exact Multiset.coe_eq_coe.mpr (replay_preserves_books evs σ σ2 hrep)
  · intro p s d b q hsplit
    have hrep2 : replay σ ((p ++ [Event.moved s d b]) ++ q) = some σ2 := by
      rw [← hrep, hsplit]; simp
    obtain ⟨σq, hq1, _⟩ := replay_prefix σ σ2 _ q hrep2
    obtain ⟨σp, hp1, hp2⟩ := replay_prefix σ σq p _ hq1
    have hstep : (Event.moved s d b).apply σp = some σq := by
      rw [replay_cons] at hp2
      cases ha : (Event.moved s d b).apply σp with
      | none => rw [ha] at hp2; cases hp2
      | some σa =>
        rw [ha] at hp2
        simp only [Option.bind, replay] at hp2
        exact hp2
    refine ⟨σp, σq, hp1, hq1, ?_⟩
    rcases apply_spec σp σq _ hstep with ⟨s2, d2, b2, he, hne, g1, g2, g3⟩ | ⟨_, _, _, he, _⟩
    · cases he
      exact ⟨hne, g1, g2, g3,
        Multiset.coe_eq_coe.mpr (replay_preserves_books _ σ σq hq1)⟩
    · cases he

/-- Moving the top three of the five books: every move of the record relocates
the top book of a cart and keeps the ten books of the carts together. -/
theorem C14_witness :
    ∃ σ2 evs, carefully_move_books 3 3 .mine .working .spare ⟨five_books, five_books, [], []⟩
        = .ok σ2 ∧
      σ2.events = [] ++ evs ∧ replay ⟨five_books, five_books, [], []⟩ evs = some σ2 ∧
      ((all_books σ2 : List Book) : Multiset Book)
        = (all_books ⟨five_books, five_books, [], []⟩ : List Book) ∧
      ∀ p s d b q, evs = p ++ Event.moved s d b :: q →
        ∃ σp σq, replay ⟨five_books, five_books, [], []⟩ p = some σp ∧
          replay ⟨five_books, five_books, [], []⟩ (p ++ [Event.moved s d b]) = some σq ∧
          s ≠ d ∧ σp.get s = b :: σq.get s ∧ σq.get d = b :: σp.get d ∧
          (∀ r, r ≠ s → r ≠ d → σq.get r = σp.get r) ∧
          ((all_books σq : List Book) : Multiset Book)
            = (all_books ⟨five_books, five_books, [], []⟩ : List Book) :=
  C14_moves_preserve_books 3 3 .mine .working .spare ⟨five_books, five_books, [], []⟩
    (by decide) (by decide) (by decide) (by decide) (by decide) (by decide) (by decide)

/-- C15: for every count `n ≥ 1` (a `std::size_t`) and every source cart with at
least `n` books, `carefully_move_books` terminates: the count of a nested call
is one less than the count of its caller, down to the base case 1, so the calls
nest exactly `n` deep: a call depth of `n` is enough for the call to return, any
larger call depth gives the same carts, and no smaller call depth is enough. -/
theorem C15_transfer_terminates (n : Nat) (src dst tmp : CartRef) (σ : Carts)
    (hn : 1 ≤ n) (hsz : n < SIZE_MOD)
    (h1 : src ≠ dst) (h2 : src ≠ tmp) (h3 : dst ≠ tmp)
    (hlen : n ≤ (σ.get src).length) :
    (∃ σ2, carefully_move_books n n src dst tmp σ = .ok σ2 ∧
      ∀ depth, n ≤ depth → carefully_move_books depth n src dst tmp σ = .ok σ2) ∧
    (∀ depth, depth < n →
      carefully_move_books depth n src dst tmp σ = .error .call_depth) ∧
    (∀ q, 2 ≤ q → q ≤ n → (q + (SIZE_MOD - 1)) % SIZE_MOD = q - 1 ∧ 1 ≤ q - 1 ∧ q - 1 < q) := by
  refine ⟨?_, ?_, ?_⟩
  · obtain ⟨σ2, hrun, _⟩ :=
      transfer_spec n hn hsz n src dst tmp σ ((σ.get src).take n) ((σ.get src).drop n)
        (le_refl _) h1 h2 h3 (by simp) (by simp [hlen])
    exact ⟨σ2, hrun, fun depth hd => transfer_depth_mono n depth n src dst tmp σ σ2 hd hrun⟩
  · intro depth hd
    exact transfer_shallow depth n src dst tmp σ hn hsz hd
  · intro q hq1 hq2
    exact ⟨size_pred q (by omega) (by omega), by omega, by omega⟩

/-- Moving the five books returns with call depth 5 and not with less. -/
theorem C15_witness :
    (∃ σ2, carefully_move_books 5 5 .mine .working .spare ⟨five_books, [], [], []⟩ = .ok σ2 ∧
      ∀ depth, 5 ≤ depth →
        carefully_move_books depth 5 .mine .working .spare ⟨five_books, [], [], []⟩ = .ok σ2) ∧
    (∀ depth, depth < 5 →
      carefully_move_books depth 5 .mine .working .spare ⟨five_books, [], [], []⟩
        = .error .call_depth) ∧
    (∀ q, 2 ≤ q → q ≤ 5 → (q + (SIZE_MOD - 1)) % SIZE_MOD = q - 1 ∧ 1 ≤ q - 1 ∧ q - 1 < q) :=
  C15_transfer_terminates 5 .mine .working .spare ⟨five_books, [], [], []⟩
    (by decide) (by decide) (by decide) (by decide) (by decide) (by decide)

/-- C16: on a session whose source cart is empty, `shop_for_books` leaves the
source cart holding exactly five books, from top to bottom Like the Animals,
131 Answer Key, Les Mis, Eat pray love, Hunger Games, each with its listed ISBN
and an empty author, and leaves the working cart, the checkout queue and the
rest of the session unchanged. -/
theorem C16_shop_for_books_fills_cart (c : Checkout) (hempty : c.my_cart_ = []) :
    (Checkout.shop_for_books c).my_cart_.map (fun b => (b.title, b.author, b.isbn)) =
      [("Like the Animals", "", "9780895656926"),
       ("131 Answer Key", "", "54782169785"),
       ("Les Mis", "", "0140444300"),
       ("Eat pray love", "", "9780399576775"),
       ("Hunger Games", "", "9780545310581")] ∧
    (Checkout.shop_for_books c).my_cart_ = five_books ∧
    (Checkout.shop_for_books c).working_cart_ = c.working_cart_ ∧
    (Checkout.shop_for_books c).checkout_counter_ = c.checkout_counter_ ∧
    (Checkout.shop_for_books c).amount_due_ = c.amount_due_ ∧
    (Checkout.shop_for_books c).book_database_ = c.book_database_ ∧
    (Checkout.shop_for_books c).cout = c.cout := by
  refine ⟨?_, ?_, rfl, rfl, rfl, rfl, rfl⟩
  · simp [Checkout.shop_for_books, stack_push, hempty]
  · simp [Checkout.shop_for_books, stack_push, hempty, five_books]

/-- Shopping on the session of the scenario whose working cart already holds
books fills the source cart and leaves that working cart as it is. -/
theorem C16_witness :
    (Checkout.shop_for_books scenario_in_working_cart).my_cart_ = five_books ∧
    (Checkout.shop_for_books scenario_in_working_cart).working_cart_ = five_books ∧
    (Checkout.shop_for_books scenario_in_working_cart).checkout_counter_ = [] := by
  obtain ⟨_, h2, h3, h4, _⟩ := C16_shop_for_books_fills_cart scenario_in_working_cart rfl
  exact ⟨h2, h3, h4⟩

/-- C17: for every checkout queue holding `k` items (`k` and the catalog size
within the range of the `int` counters) and whatever the addition of doubles
is, `do_checkout` runs its loop body
exactly `k` times, each iteration printing the line of the item at the front and
then dequeuing it: after `j ≤ k` iterations the queue has lost its first `j`
items and `j` lines have been printed. At the end the checkout queue is empty,
and the source cart, the working cart and the catalog are unchanged. -/
theorem C17_do_checkout_empties_queue (add : ℚ → ℚ → ℚ) (c : Checkout)
    (hq : c.checkout_counter_.length < 2147483648)
    (hdb : (c.book_database_.database_.length : Int) ≤ INT_MAX) :
    (int_of_size c.checkout_counter_.length).toNat = c.checkout_counter_.length ∧
    (∀ j, j ≤ c.checkout_counter_.length →
      ∃ cj, Checkout.do_checkout_loop add j c = .ok cj ∧
        cj.checkout_counter_ = c.checkout_counter_.drop j ∧
        cj.cout.length = c.cout.length + j ∧
        cj.my_cart_ = c.my_cart_ ∧ cj.working_cart_ = c.working_cart_ ∧
        cj.book_database_ = c.book_database_) ∧
    ∃ c2, Checkout.do_checkout add c = .ok c2 ∧
      c2.checkout_counter_ = [] ∧
      c2.my_cart_ = c.my_cart_ ∧ c2.working_cart_ = c.working_cart_ ∧
      c2.book_database_ = c.book_database_ := by
  refine ⟨int_of_size_small _ hq, ?_, ?_⟩
  · intro j hj
    refine ⟨_, do_checkout_loop_spec add j c hdb hj, rfl, ?_, rfl, rfl, rfl⟩
    simp [List.length_take, Nat.min_eq_left hj]
  · exact ⟨_, do_checkout_spec add c hq hdb, rfl, rfl, rfl, rfl⟩

/-- Checking out the five books of the scenario empties the counter and leaves
the carts and the two records of the catalog as they were. -/
theorem C17_witness :
    ∃ c2, Checkout.do_checkout double_add scenario_at_counter = .ok c2 ∧
      c2.checkout_counter_ = [] ∧ c2.my_cart_ = [] ∧ c2.working_cart_ = [] ∧
      c2.book_database_ = scenario_catalog := by
  obtain ⟨_, _, c2, hrun, h1, h2, h3, h4⟩ :=
    C17_do_checkout_empties_queue double_add scenario_at_counter (by decide)
      (by simp [scenario_at_counter, Checkout.fresh, scenario_catalog, INT_MAX])
  exact ⟨c2, hrun, h1, h2, h3, h4⟩

/-- C18: for every count `n ≥ 1` (a `std::size_t`), every source cart with `n`
books or more and whatever the destination and the spare cart hold,
`carefully_move_books` moves only the top `n` books of the source: the books of
the source below them stay in the source in their order, the destination ends
with the `n` moved books, in their order, on top of what it held, in its order,
and the spare cart ends with exactly what it held, in its order. -/
theorem C18_transfer_frame (n depth : Nat) (src dst tmp : CartRef) (σ : Carts)
    (hn : 1 ≤ n) (hsz : n < SIZE_MOD) (hdepth : n ≤ depth)
    (h1 : src ≠ dst) (h2 : src ≠ tmp) (h3 : dst ≠ tmp)
    (hlen : n ≤ (σ.get src).length) :
    ∃ σ2, carefully_move_books depth n src dst tmp σ = .ok σ2 ∧
      σ2.get src = (σ.get src).drop n ∧
      σ2.get dst = (σ.get src).take n ++ σ.get dst ∧
      σ2.get tmp = σ.get tmp := by
  obtain ⟨σ2, hrun, g1, g2, g3, _⟩ :=
    transfer_spec n hn hsz depth src dst tmp σ ((σ.get src).take n) ((σ.get src).drop n)
      hdepth h1 h2 h3 (by simp) (by simp [hlen])
  exact ⟨σ2, hrun, g1, g2, g3⟩

/-- Moving the top two of the five books onto a working cart that holds the two
records of the catalog, the spare cart holding the five books. -/
theorem C18_witness :
    ∃ σ2, carefully_move_books 2 2 .mine .working .spare
        ⟨five_books, scenario_catalog.database_, five_books, []⟩ = .ok σ2 ∧
      σ2.get .mine = five_books.drop 2 ∧
      σ2.get .working = five_books.take 2 ++ scenario_catalog.database_ ∧
      σ2.get .spare = five_books :=
  C18_transfer_frame 2 2 .mine .working .spare
    ⟨five_books, scenario_catalog.database_, five_books, []⟩
    (by decide) (by decide) (by decide) (by decide) (by decide) (by decide) (by decide)

/-- C19: the total computed by `do_checkout` depends only on the catalog and on
the sequence of identifiers in the checkout queue: two sessions with the same
catalog and the same `amount_due_`, whose queues (of a size within the range of
the `int` counter) hold items with the same identifiers in the same order,
whatever their titles, authors and own prices, end with the same
`amount_due_`, whatever the addition of doubles is. -/
theorem C19_total_depends_on_identifiers_only (add : ℚ → ℚ → ℚ) (c1 c2 : Checkout)
    (hq : c1.checkout_counter_.length < 2147483648)
    (hdb : (c1.book_database_.database_.length : Int) ≤ INT_MAX)
    (hcat : c2.book_database_ = c1.book_database_)
    (hdue : c2.amount_due_ = c1.amount_due_)
    (hids : c2.checkout_counter_.map Book.isbn = c1.checkout_counter_.map Book.isbn) :
    ∃ r1 r2, Checkout.do_checkout add c1 = .ok r1 ∧ Checkout.do_checkout add c2 = .ok r2 ∧
      r2.amount_due_ = r1.amount_due_ := by
  have hq2 : c2.checkout_counter_.length < 2147483648 := by
    have hl := congrArg List.length hids
    simp only [List.length_map] at hl
    omega
  have hdb2 : (c2.book_database_.database_.length : Int) ≤ INT_MAX := by rw [hcat]; exact hdb
  refine ⟨_, _, do_checkout_spec add c1 hq hdb, do_checkout_spec add c2 hq2 hdb2, ?_⟩
  have hfold : ∀ (db : BookDatabase) (q : List Book) (due : ℚ),
      q.foldl (fun due b => charged add db due b.isbn) due =
        (q.map Book.isbn).foldl (fun due isbn => charged add db due isbn) due := by
    intro db q due
    rw [List.foldl_map]
  show List.foldl _ c2.amount_due_ c2.checkout_counter_ =
    List.foldl _ c1.amount_due_ c1.checkout_counter_
  rw [hfold, hfold, hids, hcat, hdue]

/-- The five books of the scenario and five books with the same identifiers but
other titles, authors and prices give the same total. -/
theorem C19_witness :
    ∃ r1 r2, Checkout.do_checkout double_add scenario_at_counter = .ok r1 ∧
      Checkout.do_checkout double_add
        { scenario_at_counter with
          checkout_counter_ :=
            five_books.map (fun b => ⟨"another title", "another author", b.isbn, 1000⟩) }
        = .ok r2 ∧
      r2.amount_due_ = r1.amount_due_ :=
  C19_total_depends_on_identifiers_only double_add scenario_at_counter
    { scenario_at_counter with
      checkout_counter_ :=
        five_books.map (fun b => ⟨"another title", "another author", b.isbn, 1000⟩) }
    (by decide) (by simp [scenario_at_counter, Checkout.fresh, scenario_catalog, INT_MAX])
    rfl rfl (by simp [scenario_at_counter, five_books])

end Bookstore
